import Mathlib

/-!
Shallow embedding of the parallax_window repository (TypeScript) for
specification checking.  Numbers are modelled as exact rationals; the
Euclidean distance comparisons of the bullet/target code are modelled by
their decidable squared form and related to the real square root through
bridging lemmas.

Source files embedded here:
- src/app/hooks/useMultimodalTracking.ts (gesture classifier, face publish)
- src/app/utils/parallaxUtils.ts (calculateCameraPosition)
- src/app/components/ParallaxCamera.tsx (smoothing, off-axis projection)
- src/app/components/BulletSystem.tsx (spawn, integration, collision)
- src/app/components/TargetSystem.tsx (placement, hit, respawn, grow-in)
-/

/-- A 3D point or vector with components in `α`, modelling both MediaPipe
NormalizedLandmark triples and THREE.Vector3 values. -/
structure Vec3 (α : Type) where
  x : α
  y : α
  z : α
deriving DecidableEq, Repr

/-- One hand landmark, a normalized `{x, y, z}` triple
(useMultimodalTracking.ts, NormalizedLandmark usage). -/
abbrev Landmark := Vec3 ℚ

/-- Squared 2D (x, y) distance used by the gesture classifier
(useMultimodalTracking.ts line 171: squares of the x and y differences). -/
def distSq (p1 p2 : Landmark) : ℚ :=
  (p1.x - p2.x) ^ 2 + (p1.y - p2.y) ^ 2

/-- Gun-pose geometry test (useMultimodalTracking.ts lines 166-200).
The hand is a gun pose iff the index finger is extended (2D length test OR
forward-pointing depth test) and the middle, ring and pinky fingers are
folded (tip closer to wrist than PIP, in squared 2D distance).
The landmark array is modelled as a total function on indices; the code
reads the fixed indices 0 wrist, 8 index tip, 5 index MCP, 12/10 middle
tip/PIP, 16/14 ring tip/PIP, 20/18 pinky tip/PIP. -/
def isGunPose (lm : ℕ → Landmark) : Bool :=
  let wrist := lm 0
  let indexTip := lm 8
  let indexMCP := lm 5
  let isIndexLong2D : Bool := decide (distSq indexTip wrist > distSq indexMCP wrist * 1.5)
  let isIndexPointingForward : Bool := decide (indexTip.z - indexMCP.z < -0.05)
  let isIndexExtended := isIndexLong2D || isIndexPointingForward
  let isMiddleFolded : Bool := decide (distSq (lm 12) wrist < distSq (lm 10) wrist)
  let isRingFolded : Bool := decide (distSq (lm 16) wrist < distSq (lm 14) wrist)
  let isPinkyFolded : Bool := decide (distSq (lm 20) wrist < distSq (lm 18) wrist)
  isIndexExtended && isMiddleFolded && isRingFolded && isPinkyFolded

/-- Persistent recoil-detection state of the classifier
(useMultimodalTracking.ts lines 34-37: lastIndexTipY, lastTimeRef,
recoilCoolDown refs). -/
structure GestureState where
  lastIndexTipY : ℚ
  lastTime : ℚ
  recoilCoolDown : ℚ
deriving DecidableEq, Repr

/-- Result of one call to the gesture classifier. -/
structure GestureResult where
  isGunPose : Bool
  isFiring : Bool
  state : GestureState
deriving DecidableEq, Repr

/-- Fire velocity threshold (useMultimodalTracking.ts line 221). -/
def RECOIL_THRESHOLD : ℚ := -0.0005

/-- One call of analyzeHandGesture (useMultimodalTracking.ts lines 146-242)
on a frame with a detected hand: gun-pose classification, recoil (fire)
detection with the (0,100) ms staleness window and the cooldown gate, the
last-Y/last-time update inside the gun-pose branch, and the cooldown decay
in which the code subtracts `timeMs - (lastTimeRef.current || timeMs)`,
a zero stored timestamp being falsy and replaced by `timeMs`. -/
def analyzeHandGesture (lm : ℕ → Landmark) (timeMs : ℚ) (s : GestureState) :
    GestureResult :=
  let gun := isGunPose lm
  let r1 : Bool × GestureState :=
    if gun then
      let currentY := (lm 8).y
      let lastY := s.lastIndexTipY
      let dt := timeMs - s.lastTime
      let fc : Bool × ℚ :=
        if 0 < dt ∧ dt < 100 then
          let speedY := (currentY - lastY) / dt
          if speedY < RECOIL_THRESHOLD ∧ s.recoilCoolDown ≤ 0 then (true, 400)
          else (false, s.recoilCoolDown)
        else (false, s.recoilCoolDown)
      (fc.1, { lastIndexTipY := currentY, lastTime := timeMs, recoilCoolDown := fc.2 })
    else (false, s)
  let s1 := r1.2
  let s2 : GestureState :=
    if 0 < s1.recoilCoolDown then
      { s1 with recoilCoolDown :=
          s1.recoilCoolDown - (timeMs - (if s1.lastTime = 0 then timeMs else s1.lastTime)) }
    else s1
  { isGunPose := gun, isFiring := r1.1, state := s2 }

/-- Claim C3 amended characterization: the gun-pose flag holds exactly on
the geometric conditions, with the strict depth inequality the code uses. -/
theorem gunPose_iff_geometry (lm : ℕ → Landmark) :
    isGunPose lm = true ↔
      ((distSq (lm 8) (lm 0) > distSq (lm 5) (lm 0) * 1.5 ∨
        (lm 8).z - (lm 5).z < -0.05) ∧
       distSq (lm 12) (lm 0) < distSq (lm 10) (lm 0) ∧
       distSq (lm 16) (lm 0) < distSq (lm 14) (lm 0) ∧
       distSq (lm 20) (lm 0) < distSq (lm 18) (lm 0)) := by
  simp only [isGunPose, Bool.and_eq_true, Bool.or_eq_true, decide_eq_true_eq]
  tauto

/-- Landmarks whose index tip sits exactly 0.05 depth units nearer the
camera than the index MCP, with the 2D length test failing and the three
non-index fingers folded. -/
def c3Lm : ℕ → Landmark := fun i =>
  if i = 8 then ⟨1/2, 0, -(1/20)⟩
  else if i = 5 then ⟨1, 0, 0⟩
  else if i = 10 ∨ i = 14 ∨ i = 18 then ⟨1, 0, 0⟩
  else if i = 12 ∨ i = 16 ∨ i = 20 then ⟨1/10, 0, 0⟩
  else ⟨0, 0, 0⟩

/-- Claim C3 as frozen is false: at a depth difference of exactly -0.05 the
claimed "at least 0.05 units smaller" disjunct holds and the three fingers
are folded, yet the code's strict comparison yields isGunPose = false. -/
theorem gunPose_z_boundary :
    (((distSq (c3Lm 8) (c3Lm 0) > distSq (c3Lm 5) (c3Lm 0) * 1.5) ∨
      (c3Lm 8).z - (c3Lm 5).z ≤ -0.05) ∧
     distSq (c3Lm 12) (c3Lm 0) < distSq (c3Lm 10) (c3Lm 0) ∧
     distSq (c3Lm 16) (c3Lm 0) < distSq (c3Lm 14) (c3Lm 0) ∧
     distSq (c3Lm 20) (c3Lm 0) < distSq (c3Lm 18) (c3Lm 0)) ∧
    isGunPose c3Lm = false := by
  norm_num [c3Lm, distSq, isGunPose]

/-- Claim C1 amended characterization: isFiring is true iff gun pose holds,
the elapsed time since the last stored sample is in (0,100) ms, the vertical
index-tip velocity is strictly below the fire threshold, and the stored
cooldown counter is at most 0. -/
theorem firing_iff_strict_conditions (lm : ℕ → Landmark) (timeMs : ℚ)
    (s : GestureState) :
    (analyzeHandGesture lm timeMs s).isFiring = true ↔
      (isGunPose lm = true ∧
       0 < timeMs - s.lastTime ∧ timeMs - s.lastTime < 100 ∧
       ((lm 8).y - s.lastIndexTipY) / (timeMs - s.lastTime) < RECOIL_THRESHOLD ∧
       s.recoilCoolDown ≤ 0) := by
  simp only [analyzeHandGesture]
  split_ifs with hg hdt hf
  · exact iff_of_true rfl ⟨hg, hdt.1, hdt.2, hf.1, hf.2⟩
  · exact iff_of_false (by simp) (fun h => hf ⟨h.2.2.2.1, h.2.2.2.2⟩)
  · exact iff_of_false (by simp) (fun h => hdt ⟨h.2.1, h.2.2.1⟩)
  · exact iff_of_false (by simp) (fun h => hg h.1)

/-- Gun-pose landmarks with a configurable index-tip height. -/
def gpLm (yTip : ℚ) : ℕ → Landmark := fun i =>
  if i = 8 then ⟨2, yTip, 0⟩
  else if i = 5 then ⟨1, 0, 0⟩
  else if i = 10 ∨ i = 14 ∨ i = 18 then ⟨1, 0, 0⟩
  else if i = 12 ∨ i = 16 ∨ i = 20 then ⟨1/10, 0, 0⟩
  else ⟨0, 0, 0⟩

/-- Gesture state put exactly at the fire boundary by the sample at
t = 1010 with index-tip y = -1/200: the velocity is exactly -0.0005. -/
def c1State : GestureState := ⟨0, 1000, 0⟩

/-- Claim C1 as frozen is false: at a vertical velocity exactly equal to the
fire threshold the claimed "less than or equal" condition holds (gun pose,
dt = 10 ms, cooldown 0), yet the code's strict comparison reports
isFiring = false. -/
theorem firing_at_threshold_boundary :
    (isGunPose (gpLm (-(1/200))) = true ∧
     0 < (1010 : ℚ) - c1State.lastTime ∧ (1010 : ℚ) - c1State.lastTime < 100 ∧
     ((gpLm (-(1/200)) 8).y - c1State.lastIndexTipY) / ((1010 : ℚ) - c1State.lastTime) ≤
       RECOIL_THRESHOLD ∧
     c1State.recoilCoolDown ≤ 0) ∧
    (analyzeHandGesture (gpLm (-(1/200))) 1010 c1State).isFiring = false := by
  norm_num [analyzeHandGesture, isGunPose, distSq, gpLm, c1State, RECOIL_THRESHOLD]

/-- Hand landmarks that are detected but fail the gun-pose test: the index
finger is neither long in 2D nor pointing forward, while the other fingers
are folded. -/
def ngLm : ℕ → Landmark := fun i =>
  if i = 8 then ⟨1/2, 0, 0⟩
  else if i = 5 then ⟨1, 0, 0⟩
  else if i = 10 ∨ i = 14 ∨ i = 18 then ⟨1, 0, 0⟩
  else if i = 12 ∨ i = 16 ∨ i = 20 then ⟨1/10, 0, 0⟩
  else ⟨0, 0, 0⟩

/-- Runs the gesture classifier over a list of (landmarks, timestamp)
frames starting from the initial ref state (0, 0, 0), returning the
per-frame isFiring flags (the per-frame loop of predictWebcam feeding
analyzeHandGesture, useMultimodalTracking.ts lines 119-135). -/
def gestureTrace (frames : List ((ℕ → Landmark) × ℚ)) : List Bool :=
  (frames.foldl (fun acc f =>
    let r := analyzeHandGesture f.1 f.2 acc.1
    (r.state, acc.2 ++ [r.isFiring])) ((⟨0, 0, 0⟩ : GestureState), [])).2

/-- A frame sequence with a fire at t = 1020 ms, seven hand-detected frames
without gun pose, and a renewed gun-pose flick at t = 1110 ms. -/
def c2Frames : List ((ℕ → Landmark) × ℚ) :=
  [(gpLm (3/10), 1000), (gpLm (28/100), 1020), (ngLm, 1060), (ngLm, 1070),
   (ngLm, 1080), (ngLm, 1090), (ngLm, 1100), (ngLm, 1105), (ngLm, 1108),
   (gpLm (2/10), 1110)]

/-- Claim C2 is violated by the code: a fire edge is emitted at t = 1020 ms
(second frame) and another at t = 1110 ms (last frame), only 90 ms < 400 ms
later.  The cooldown, set to 400 on the fire, is decremented on each
non-gun-pose frame by the time since the last gun-pose frame (40, 50, 60,
70, 80, 85, 88 ms: double counting) instead of the per-frame elapsed time,
so it reaches 0 within 88 ms of the fire. -/
theorem cooldown_double_decay_trace :
    gestureTrace c2Frames =
      [false, true, false, false, false, false, false, false, false, true] ∧
    (1110 : ℚ) - 1020 < 400 := by
  constructor
  · norm_num [gestureTrace, c2Frames, analyzeHandGesture, isGunPose, distSq,
      gpLm, ngLm, RECOIL_THRESHOLD]
  · norm_num

/-- Published face position (useMultimodalTracking.ts lines 4-9):
normalized x, y in [-1,1], relative depth z, and a detected flag. -/
structure FacePosition where
  x : ℚ
  y : ℚ
  z : ℚ
  detected : Bool
deriving DecidableEq, Repr

/-- Tuning constants of parallaxUtils.ts (PARALLAX_CONSTANTS). -/
def SCALE_X : ℚ := 30

/-- Vertical eye-displacement scale (parallaxUtils.ts). -/
def SCALE_Y : ℚ := 20

/-- Base eye depth (parallaxUtils.ts). -/
def BASE_Z : ℚ := 60

/-- Depth variation range (parallaxUtils.ts). -/
def Z_RANGE : ℚ := 40

/-- Minimum eye depth (parallaxUtils.ts). -/
def MIN_Z : ℚ := 10

/-- Target eye position from a face position
(parallaxUtils.ts lines 17-40, calculateCameraPosition). -/
def calculateCameraPosition (fp : FacePosition) : Vec3 ℚ :=
  if !fp.detected then ⟨0, 0, BASE_Z⟩
  else
    let px := -fp.x * SCALE_X
    let py := fp.y * SCALE_Y
    let pz := BASE_Z + fp.z * Z_RANGE
    ⟨px, py, max MIN_Z pz⟩

/-- Claim C4: the target eye position is (0, 0, 60) when no face is
detected, and otherwise (-x * 30, y * 20, max(10, 60 + z * 40)). -/
theorem calculateCameraPosition_spec (fp : FacePosition) :
    calculateCameraPosition fp =
      if fp.detected then
        ⟨-fp.x * 30, fp.y * 20, max 10 (60 + fp.z * 40)⟩
      else (⟨0, 0, 60⟩ : Vec3 ℚ) := by
  cases h : fp.detected <;>
    simp [calculateCameraPosition, h, SCALE_X, SCALE_Y, BASE_Z, Z_RANGE, MIN_Z]

/-- One THREE.Vector3.lerp smoothing step of the camera position
(ParallaxCamera.tsx line 59, with SMOOTHING_FACTOR applied per frame):
each component moves by alpha times its distance to the target. -/
def lerpVec (current target : Vec3 ℚ) (alpha : ℚ) : Vec3 ℚ :=
  ⟨current.x + (target.x - current.x) * alpha,
   current.y + (target.y - current.y) * alpha,
   current.z + (target.z - current.z) * alpha⟩

/-- Per-frame smoothing factor (ParallaxCamera.tsx line 17). -/
def SMOOTHING_FACTOR : ℚ := 0.3

/-- Initial camera position (ParallaxCamera.tsx line 14). -/
def initialCameraPos : Vec3 ℚ := ⟨0, 0, 60⟩

/-- Asymmetric projection parameters. -/
structure ProjParams where
  left : ℚ
  right : ℚ
  top : ℚ
  bottom : ℚ
  near : ℚ
  far : ℚ
deriving DecidableEq, Repr

/-- Off-axis projection computation of the per-frame callback
(ParallaxCamera.tsx lines 70-95): screen half extents, near = 0.1,
far = 1000, eye depth clamped below by 0.1, and the four skewed frustum
edges scaled by near over the safe eye depth. -/
def computeProjection (screenW screenH : ℚ) (eye : Vec3 ℚ) : ProjParams :=
  let halfW := screenW / 2
  let halfH := screenH / 2
  let near : ℚ := 0.1
  let far : ℚ := 1000
  let pz := eye.z
  let safePz := max 0.1 pz
  { left := (-halfW - eye.x) * (near / safePz)
    right := (halfW - eye.x) * (near / safePz)
    top := (halfH - eye.y) * (near / safePz)
    bottom := (-halfH - eye.y) * (near / safePz)
    near := near
    far := far }

/-- Claim C5: the projection parameters equal the claimed formulas with
near 0.1, far 1000 and the eye depth clamped below to 0.1, and the clamped
depth is strictly positive, so the division is always defined. -/
theorem projection_params_spec (screenW screenH : ℚ) (eye : Vec3 ℚ) :
    computeProjection screenW screenH eye =
      { left := (-(screenW / 2) - eye.x) * ((1/10) / max (1/10) eye.z)
        right := (screenW / 2 - eye.x) * ((1/10) / max (1/10) eye.z)
        top := (screenH / 2 - eye.y) * ((1/10) / max (1/10) eye.z)
        bottom := (-(screenH / 2) - eye.y) * ((1/10) / max (1/10) eye.z)
        near := 1/10
        far := 1000 } ∧
    0 < max (1/10 : ℚ) eye.z := by
  constructor
  · norm_num [computeProjection]
  · exact lt_max_of_lt_left (by norm_num)

/-- Face branch of the per-frame detection callback
(useMultimodalTracking.ts lines 99-116): on a successful detection the
nose landmark is normalized to x in [-1,1] (left to right), y flipped so
up is positive, z passed through, detected set; on a failed detection the
previous published position is kept with detected cleared. -/
def processFaceResult (nose : Option Landmark) (prev : FacePosition) : FacePosition :=
  match nose with
  | some n => ⟨(n.x - 0.5) * 2, -(n.y - 0.5) * 2, n.z, true⟩
  | none => { prev with detected := false }

/-- Claim C9: when face detection fails, the published FacePosition keeps
the previous x, y, z unchanged and only clears the detected flag. -/
theorem faceLost_preserves_position (prev : FacePosition) :
    processFaceResult none prev = ⟨prev.x, prev.y, prev.z, false⟩ := by
  rfl

/-- Squared 3D Euclidean distance between two points.  THREE's distanceTo
is the square root of this; comparisons against a radius are modelled by
the decidable squared form and related to the square root in
distLtBool_iff_dist_lt below. -/
def distSqV (p q : Vec3 ℚ) : ℚ :=
  (p.x - q.x) ^ 2 + (p.y - q.y) ^ 2 + (p.z - q.z) ^ 2

/-- Decidable form of the source's Euclidean comparison
`p.distanceTo(q) < r`: equivalently the radius is positive and the squared
distance is below the squared radius. -/
def distLtBool (p q : Vec3 ℚ) (r : ℚ) : Bool :=
  decide (0 < r ∧ distSqV p q < r ^ 2)

/-- The real Euclidean distance (THREE.Vector3.distanceTo). -/
noncomputable def distR (p q : Vec3 ℚ) : ℝ :=
  Real.sqrt ((distSqV p q : ℚ) : ℝ)

theorem distSqV_nonneg (p q : Vec3 ℚ) : 0 ≤ distSqV p q := by
  have hx := sq_nonneg (p.x - q.x)
  have hy := sq_nonneg (p.y - q.y)
  have hz := sq_nonneg (p.z - q.z)
  simp only [distSqV]
  linarith

/-- The decidable squared comparison agrees with the source's Euclidean
comparison. -/
theorem distLtBool_iff_dist_lt (p q : Vec3 ℚ) (r : ℚ) :
    distLtBool p q r = true ↔ distR p q < (r : ℝ) := by
  simp only [distLtBool, decide_eq_true_eq, distR]
  constructor
  · rintro ⟨hr, hlt⟩
    have hr' : (0 : ℝ) < (r : ℚ) := by exact_mod_cast hr
    exact (Real.sqrt_lt' hr').mpr (by exact_mod_cast hlt)
  · intro h
    have hr' : (0 : ℝ) < (r : ℚ) :=
      lt_of_le_of_lt (Real.sqrt_nonneg _) h
    have hlt := (Real.sqrt_lt' hr').mp h
    exact ⟨by exact_mod_cast hr', by exact_mod_cast hlt⟩

/-- One target of the pool (TargetSystem.tsx lines 11-18): identifier,
position, scale (doubling as collision radius), active flag, and the
optional hit timestamp. -/
structure Target where
  id : ℕ
  position : Vec3 ℚ
  scale : ℚ
  active : Bool
  hitTime : Option ℚ
deriving DecidableEq, Repr

/-- One bullet (BulletSystem.tsx lines 17-23). -/
structure Bullet where
  id : ℕ
  position : Vec3 ℚ
  velocity : Vec3 ℚ
  active : Bool
  life : ℚ
deriving DecidableEq, Repr

/-- Componentwise vector sum. -/
def vadd (a b : Vec3 ℚ) : Vec3 ℚ := ⟨a.x + b.x, a.y + b.y, a.z + b.z⟩

/-- Scalar multiple of a vector. -/
def vsmul (c : ℚ) (a : Vec3 ℚ) : Vec3 ℚ := ⟨c * a.x, c * a.y, c * a.z⟩

/-- Updated bullet position after one frame of elapsed time delta
(BulletSystem.tsx line 54: velocity scaled by delta * 200). -/
def stepPos (delta : ℚ) (b : Bullet) : Vec3 ℚ :=
  vadd b.position (vsmul (delta * 200) b.velocity)

/-- First active target whose centre lies within scale + 0.5 of the given
position, in list order (the collision loop of BulletSystem.tsx lines
63-81 with its break on the first hit). -/
def findHitTarget (pos : Vec3 ℚ) (ts : List Target) : Option Target :=
  ts.find? (fun t => t.active && distLtBool pos t.position (t.scale + 0.5))

/-- Per-frame update of a single bullet (BulletSystem.tsx lines 51-93):
skip inactive bullets; integrate position and life; deactivate when life
runs out or the far depth limit -200 is passed; on the first colliding
active target deactivate the bullet and report the target id; otherwise
keep the bullet with its updated position and life.  Returns the surviving
bullet (if any) and the id of the hit target (if any). -/
def updateBullet (delta : ℚ) (ts : List Target) (b : Bullet) :
    Option Bullet × Option ℕ :=
  if !b.active then (none, none)
  else
    let newPos := stepPos delta b
    let newLife := b.life - delta
    if newLife > 0 ∧ newPos.z > -200 then
      match findHitTarget newPos ts with
      | some t => (none, some t.id)
      | none => (some { b with position := newPos, life := newLife }, none)
    else (none, none)

/-- Claim C7: for a bullet still active after its position/life update,
a hit is reported iff some active target lies strictly within
scale + 0.5 Euclidean distance of the updated position; the hit target is
the first qualifying one in iteration order; a hit removes the bullet; and
with no qualifying target the bullet persists with its updated position
and life. -/
theorem bullet_collision_spec (delta : ℚ) (ts : List Target) (b : Bullet)
    (hb : b.active = true)
    (hlife : 0 < b.life - delta)
    (hz : -200 < (stepPos delta b).z) :
    ((updateBullet delta ts b).2.isSome ↔
       ∃ t ∈ ts, t.active = true ∧ distR (stepPos delta b) t.position < (t.scale : ℝ) + 0.5) ∧
    (updateBullet delta ts b).2 = (findHitTarget (stepPos delta b) ts).map (fun t => t.id) ∧
    (∀ t, findHitTarget (stepPos delta b) ts = some t →
       t ∈ ts ∧ t.active = true ∧ distR (stepPos delta b) t.position < (t.scale : ℝ) + 0.5) ∧
    ((updateBullet delta ts b).2.isSome → (updateBullet delta ts b).1 = none) ∧
    ((∀ t ∈ ts, t.active = true → ¬ distR (stepPos delta b) t.position < (t.scale : ℝ) + 0.5) →
       (updateBullet delta ts b).1 =
         some { b with position := stepPos delta b, life := b.life - delta }) := by
  have hcond : (b.life - delta > 0 ∧ (stepPos delta b).z > -200) := ⟨hlife, hz⟩
  have hqual : ∀ t : Target,
      (t.active && distLtBool (stepPos delta b) t.position (t.scale + 0.5)) = true ↔
      (t.active = true ∧ distR (stepPos delta b) t.position < (t.scale : ℝ) + 0.5) := by
    intro t
    rw [Bool.and_eq_true, distLtBool_iff_dist_lt]
    have : ((t.scale + 0.5 : ℚ) : ℝ) = (t.scale : ℝ) + 0.5 := by push_cast; ring
    rw [this]
  have hupd : updateBullet delta ts b =
      (match findHitTarget (stepPos delta b) ts with
       | some t => (none, some t.id)
       | none => (some { b with position := stepPos delta b, life := b.life - delta }, none)) := by
    simp only [updateBullet, hb, Bool.not_true, Bool.false_eq_true, if_false, if_pos hcond]
  refine ⟨?_, ?_, ?_, ?_, ?_⟩
  · rw [hupd]
    cases hf : findHitTarget (stepPos delta b) ts with
    | none =>
      simp only [Option.isSome_none, Bool.false_eq_true, false_iff]
      rintro ⟨t, htmem, hta, htd⟩
      have hf' : List.find?
          (fun u => u.active && distLtBool (stepPos delta b) u.position (u.scale + 0.5)) ts =
          none := hf
      have := List.find?_eq_none.mp hf' t htmem
      exact this ((hqual t).mpr ⟨hta, htd⟩)
    | some t =>
      simp only [Option.isSome_some, true_iff]
      have hf' : List.find?
          (fun u => u.active && distLtBool (stepPos delta b) u.position (u.scale + 0.5)) ts =
          some t := hf
      have hmem := List.mem_of_find?_eq_some hf'
      have hp := List.find?_some hf'
      exact ⟨t, hmem, (hqual t).mp hp⟩
  · rw [hupd]
    cases hf : findHitTarget (stepPos delta b) ts <;> simp
  · intro t hf
    have hf' : List.find?
        (fun u => u.active && distLtBool (stepPos delta b) u.position (u.scale + 0.5)) ts =
        some t := hf
    have hp := List.find?_some hf'
    exact ⟨List.mem_of_find?_eq_some hf', (hqual t).mp hp⟩
  · rw [hupd]
    cases hf : findHitTarget (stepPos delta b) ts <;> simp
  · intro hnone
    rw [hupd]
    cases hf : findHitTarget (stepPos delta b) ts with
    | none => rfl
    | some t =>
      have hf' : List.find?
          (fun u => u.active && distLtBool (stepPos delta b) u.position (u.scale + 0.5)) ts =
          some t := hf
      have hmem := List.mem_of_find?_eq_some hf'
      have hp0 := List.find?_some hf'
      have hp := (hqual t).mp hp0
      exact absurd hp.2 (hnone t hmem hp.1)

/-- Witness data: a frame time step of 10 ms. -/
def wDelta : ℚ := 1/100

/-- Witness bullet flying straight into the scene. -/
def wBullet : Bullet := ⟨1, ⟨0, 0, 0⟩, ⟨0, 0, -1⟩, true, 3⟩

/-- Witness target directly on the bullet's path. -/
def wTargets : List Target := [⟨7, ⟨0, 0, -2⟩, 3, true, none⟩]

theorem bullet_collision_spec_witness :
    wBullet.active = true ∧ 0 < wBullet.life - wDelta ∧
    -200 < (stepPos wDelta wBullet).z ∧
    ((updateBullet wDelta wTargets wBullet).2.isSome ↔
      ∃ t ∈ wTargets, t.active = true ∧
        distR (stepPos wDelta wBullet) t.position < (t.scale : ℝ) + 0.5) :=
  ⟨rfl, by norm_num [wBullet, wDelta],
   by norm_num [stepPos, vadd, vsmul, wBullet, wDelta],
   (bullet_collision_spec wDelta wTargets wBullet rfl (by norm_num [wBullet, wDelta])
     (by norm_num [stepPos, vadd, vsmul, wBullet, wDelta])).1⟩

/-- Minimum separation between target centres (TargetSystem.tsx line 30). -/
def MIN_DIST : ℚ := 6

/-- Candidate position of one sampling attempt (TargetSystem.tsx lines
33-37), as a function of the triple of uniform samples drawn for that
attempt. -/
def mkAttemptPos (r : ℚ × ℚ × ℚ) : Vec3 ℚ :=
  ⟨(r.1 - 0.5) * 35, (r.2.1 - 0.5) * 18, -5 - r.2.2 * 35⟩

/-- Fallback position drawn after ten failed attempts (TargetSystem.tsx
lines 49-53). -/
def mkFallbackPos (r : ℚ × ℚ × ℚ) : Vec3 ℚ :=
  ⟨(r.1 - 0.5) * 30, (r.2.1 - 0.5) * 15, -10 - r.2.2 * 30⟩

/-- Validity check of one candidate (TargetSystem.tsx lines 39-45): no
active existing target lies strictly within MIN_DIST of it. -/
def posClear (pos : Vec3 ℚ) (existingTargets : List Target) : Bool :=
  existingTargets.all (fun t => !(t.active && distLtBool pos t.position MIN_DIST))

/-- getRandomPosition (TargetSystem.tsx lines 29-54): up to ten attempts,
returning the first valid candidate; after ten failures the fallback
position is returned WITHOUT a validity check.  The Math.random() stream
is modelled by one sample triple per attempt index, index 10 feeding the
fallback. -/
def getRandomPosition (rands : ℕ → ℚ × ℚ × ℚ) (existingTargets : List Target) : Vec3 ℚ :=
  match (List.range 10).find? (fun i => posClear (mkAttemptPos (rands i)) existingTargets) with
  | some i => mkAttemptPos (rands i)
  | none => mkFallbackPos (rands 10)

/-- Immediate part of hit(id) (TargetSystem.tsx lines 84-89): an active
target with the given id is marked inactive with its hit time recorded;
any other target, including an already-inactive one with this id, is
unchanged. -/
def hitMark (id : ℕ) (now : ℚ) (prev : List Target) : List Target :=
  prev.map (fun t =>
    if t.id = id ∧ t.active = true then { t with active := false, hitTime := some now }
    else t)

/-- Scheduled time of the delayed respawn: hit(id) registers the callback
2000 ms after the call (TargetSystem.tsx line 112). -/
def hitRespawnAt (now : ℚ) : ℚ := now + 2000

/-- Replacement of the element at one index, the effect of writing
newTargets[idx] on a copy of the array in the respawn callback. -/
def listModify (f : Target → Target) : ℕ → List Target → List Target
  | _, [] => []
  | 0, t :: ts => f t :: ts
  | n + 1, t :: ts => t :: listModify f n ts

/-- Delayed part of hit(id) (TargetSystem.tsx lines 92-112): if the id is
no longer present the pool is unchanged; otherwise the entry with that id
becomes active at a freshly sampled position (avoiding the other
currently-active targets) with scale 0 and its hit time cleared — without
checking the entry's current active flag. -/
def respawn (rands : ℕ → ℚ × ℚ × ℚ) (id : ℕ) (prev : List Target) : List Target :=
  match prev.findIdx? (fun p => p.id == id) with
  | none => prev
  | some idx =>
      let newPos := getRandomPosition rands (prev.filter (fun t => t.active && !(t.id == id)))
      listModify (fun t =>
        { t with active := true, hitTime := none, position := newPos, scale := 0 }) idx prev

/-- Per-frame grow-in step of one target (TargetSystem.tsx lines 126-134):
an active target below full scale grows by delta * 5, clamped at 3. -/
def targetFrame (delta : ℚ) (t : Target) : Target :=
  if !t.active then t
  else if t.scale < 3 then { t with scale := min 3 (t.scale + delta * 5) }
  else t

theorem listModify_getElem? (f : Target → Target) :
    ∀ (n : ℕ) (l : List Target), (listModify f n l)[n]? = (l[n]?).map f
  | _, [] => by simp [listModify]
  | 0, t :: ts => by simp [listModify]
  | n + 1, t :: ts => by
      simp only [listModify, List.getElem?_cons_succ]
      exact listModify_getElem? f n ts

/-- When some attempt among the first ten is valid, getRandomPosition
returns a validity-checked position. -/
theorem getRandomPosition_clear (rands : ℕ → ℚ × ℚ × ℚ) (existingTargets : List Target)
    (h : ∃ i, i < 10 ∧ posClear (mkAttemptPos (rands i)) existingTargets = true) :
    posClear (getRandomPosition rands existingTargets) existingTargets = true := by
  obtain ⟨i, hi, hp⟩ := h
  have hsome : ((List.range 10).find?
      (fun j => posClear (mkAttemptPos (rands j)) existingTargets)).isSome := by
    rw [List.find?_isSome]
    exact ⟨i, List.mem_range.mpr hi, hp⟩
  unfold getRandomPosition
  cases hf : (List.range 10).find?
      (fun j => posClear (mkAttemptPos (rands j)) existingTargets) with
  | none => rw [hf] at hsome; simp at hsome
  | some j => simpa using List.find?_some hf

/-- A validity-checked position is at least MIN_DIST away from every
active existing target. -/
theorem posClear_separation (pos : Vec3 ℚ) (existingTargets : List Target)
    (h : posClear pos existingTargets = true) :
    ∀ t ∈ existingTargets, t.active = true → ¬ distR pos t.position < (MIN_DIST : ℝ) := by
  intro t ht hta hd
  have h1 := List.all_eq_true.mp h t ht
  rw [hta] at h1
  simp only [Bool.true_and, Bool.not_eq_true'] at h1
  rw [← distLtBool_iff_dist_lt pos t.position MIN_DIST] at hd
  rw [h1] at hd
  cases hd

/-- Claim C8 amended: after hit(id), every pool entry with that id is
inactive; the respawn callback runs 2000 ms after the call; it reactivates
the entry with scale 0 at a freshly sampled position which — whenever some
of the ten sampling attempts passes the separation check — is at least
MIN_DIST from every other currently-active target; and the per-frame
grow-in step is monotone in scale and clamped at the full scale 3. -/
theorem target_respawn_spec (prev : List Target) (id : ℕ) (now : ℚ)
    (rands : ℕ → ℚ × ℚ × ℚ)
    (hattempt : ∃ i, i < 10 ∧
      posClear (mkAttemptPos (rands i))
        ((hitMark id now prev).filter (fun t => t.active && !(t.id == id))) = true) :
    (∀ t ∈ hitMark id now prev, t.id = id → t.active = false) ∧
    hitRespawnAt now = now + 2000 ∧
    (∀ idx t, (hitMark id now prev).findIdx? (fun p => p.id == id) = some idx →
       (hitMark id now prev)[idx]? = some t →
       ∃ u, (respawn rands id (hitMark id now prev))[idx]? = some u ∧
         u.active = true ∧ u.scale = 0 ∧ u.id = t.id ∧
         ∀ v ∈ hitMark id now prev, v.active = true → v.id ≠ id →
           ¬ distR u.position v.position < (MIN_DIST : ℝ)) ∧
    (∀ (delta : ℚ) (t : Target), 0 ≤ delta →
       t.scale ≤ (targetFrame delta t).scale ∧
       (t.scale ≤ 3 → (targetFrame delta t).scale ≤ 3)) := by
  refine ⟨?_, rfl, ?_, ?_⟩
  · intro t ht hid
    simp only [hitMark, List.mem_map] at ht
    obtain ⟨s, _, rfl⟩ := ht
    by_cases hc : s.id = id ∧ s.active = true
    · rw [if_pos hc]
    · rw [if_neg hc] at hid ⊢
      cases ha : s.active with
      | false => rfl
      | true => exact absurd ⟨hid, ha⟩ hc
  · intro idx t hidx ht
    have hclear := getRandomPosition_clear rands
      ((hitMark id now prev).filter (fun t => t.active && !(t.id == id))) hattempt
    have hget : (respawn rands id (hitMark id now prev))[idx]? =
        some { t with
                active := true
                hitTime := none
                position := getRandomPosition rands
                  ((hitMark id now prev).filter (fun t => t.active && !(t.id == id)))
                scale := 0 } := by
      simp only [respawn, hidx]
      rw [listModify_getElem?, ht]
      rfl
    exact ⟨_, hget, rfl, rfl, rfl, fun v hv hva hvid =>
      posClear_separation _ _ hclear v (List.mem_filter.mpr ⟨hv, by simp [hva, hvid]⟩) hva⟩
  · intro delta t hdelta
    by_cases ha : t.active = true
    · by_cases hs : t.scale < 3
      · constructor
        · simp only [targetFrame, ha, Bool.not_true, Bool.false_eq_true, if_false, if_pos hs]
          exact le_min hs.le (by nlinarith)
        · intro h3
          simp only [targetFrame, ha, Bool.not_true, Bool.false_eq_true, if_false, if_pos hs]
          exact min_le_left _ _
      · constructor
        · simp [targetFrame, ha, hs]
        · intro h3
          simp [targetFrame, ha, hs, h3]
    · have ha' : t.active = false := by
        cases h : t.active with
        | false => rfl
        | true => exact absurd h ha
      constructor
      · simp [targetFrame, ha']
      · intro h3
        simp [targetFrame, ha', h3]

/-- Witness random stream: every sample is 1/2. -/
def wRands : ℕ → ℚ × ℚ × ℚ := fun _ => (1/2, 1/2, 1/2)

/-- Witness pool of two well-separated active targets. -/
def wPool : List Target :=
  [⟨0, ⟨0, 0, -20⟩, 3, true, none⟩, ⟨1, ⟨20, 0, -20⟩, 3, true, none⟩]

theorem target_respawn_spec_witness :
    (∃ i, i < 10 ∧ posClear (mkAttemptPos (wRands i))
        ((hitMark 0 1000 wPool).filter (fun t => t.active && !(t.id == 0))) = true) ∧
    (∀ t ∈ hitMark 0 1000 wPool, t.id = 0 → t.active = false) :=
  ⟨⟨0, by norm_num,
     by norm_num [posClear, hitMark, wPool, wRands, mkAttemptPos, distLtBool, distSqV,
       MIN_DIST]⟩,
   (target_respawn_spec wPool 0 1000 wRands
     ⟨0, by norm_num,
      by norm_num [posClear, hitMark, wPool, wRands, mkAttemptPos, distLtBool, distSqV,
        MIN_DIST]⟩).1⟩

/-- Claim C10: the immediate marking step of hit(id) leaves an
already-inactive entry unchanged; the delayed respawn reactivates the
entry with the given id at a fresh position with scale 0 regardless of its
current active flag; and an absent id makes the delayed respawn a no-op. -/
theorem hit_respawn_unconditional (prev : List Target) (id : ℕ) (now : ℚ)
    (rands : ℕ → ℚ × ℚ × ℚ) :
    (∀ (i : ℕ) (t : Target), prev[i]? = some t → t.active = false →
       (hitMark id now prev)[i]? = some t) ∧
    (∀ (idx : ℕ) (t : Target), prev.findIdx? (fun p => p.id == id) = some idx →
       prev[idx]? = some t →
       (respawn rands id prev)[idx]? = some { t with
         active := true
         hitTime := none
         position := getRandomPosition rands
           (prev.filter (fun u => u.active && !(u.id == id)))
         scale := 0 }) ∧
    (prev.findIdx? (fun p => p.id == id) = none → respawn rands id prev = prev) := by
  refine ⟨?_, ?_, ?_⟩
  · intro i t hget hta
    have hmap : (hitMark id now prev)[i]? = (prev[i]?).map (fun t =>
        if t.id = id ∧ t.active = true then { t with active := false, hitTime := some now }
        else t) := by
      simp [hitMark]
    rw [hmap, hget]
    have hc : ¬ (t.id = id ∧ t.active = true) := by
      rintro ⟨-, h2⟩
      rw [hta] at h2
      cases h2
    simp [hc]
  · intro idx t hidx ht
    simp only [respawn, hidx]
    rw [listModify_getElem?, ht]
    rfl
  · intro hnone
    simp only [respawn, hnone]

/-- Witness target that is already inactive when hit(id) fires again. -/
def w2T : Target := ⟨3, ⟨0, 0, -20⟩, 3, false, some 500⟩

/-- Witness pool holding only the inactive target. -/
def w2Pool : List Target := [w2T]

theorem hit_respawn_unconditional_witness :
    (hitMark 3 1000 w2Pool)[0]? = some w2T ∧
    (respawn wRands 3 w2Pool)[0]? = some { w2T with
      active := true
      hitTime := none
      position := getRandomPosition wRands (w2Pool.filter (fun u => u.active && !(u.id == 3)))
      scale := 0 } :=
  ⟨(hit_respawn_unconditional w2Pool 3 1000 wRands).1 0 w2T rfl rfl,
   (hit_respawn_unconditional w2Pool 3 1000 wRands).2.1 0 w2T rfl rfl⟩

/-- Counterexample random stream: every Math.random() call returns 1/2, so
every attempt lands on (0, 0, -45/2) and the fallback on (0, 0, -25). -/
def ceRands : ℕ → ℚ × ℚ × ℚ := fun _ => (1/2, 1/2, 1/2)

/-- A pool of 15 active targets on a well-separated grid (pairwise at
least 8 apart), with a target at the centre column (0, 0, -45/2) placed
second so every sampling attempt collides with it. -/
def cePool : List Target :=
  [⟨0, ⟨-16, -8, -(45/2)⟩, 3, true, none⟩,
   ⟨1, ⟨0, 0, -(45/2)⟩, 3, true, none⟩,
   ⟨2, ⟨-8, -8, -(45/2)⟩, 3, true, none⟩,
   ⟨3, ⟨8, -8, -(45/2)⟩, 3, true, none⟩,
   ⟨4, ⟨16, -8, -(45/2)⟩, 3, true, none⟩,
   ⟨5, ⟨-16, 0, -(45/2)⟩, 3, true, none⟩,
   ⟨6, ⟨-8, 0, -(45/2)⟩, 3, true, none⟩,
   ⟨7, ⟨8, 0, -(45/2)⟩, 3, true, none⟩,
   ⟨8, ⟨16, 0, -(45/2)⟩, 3, true, none⟩,
   ⟨9, ⟨-16, 8, -(45/2)⟩, 3, true, none⟩,
   ⟨10, ⟨-8, 8, -(45/2)⟩, 3, true, none⟩,
   ⟨11, ⟨0, 8, -(45/2)⟩, 3, true, none⟩,
   ⟨12, ⟨8, 8, -(45/2)⟩, 3, true, none⟩,
   ⟨13, ⟨16, 8, -(45/2)⟩, 3, true, none⟩,
   ⟨14, ⟨0, -8, -(45/2)⟩, 3, true, none⟩]

/-- The pool after the immediate marking step of hit(0). -/
def ceMarked : List Target :=
  [⟨0, ⟨-16, -8, -(45/2)⟩, 3, false, some 1000⟩,
   ⟨1, ⟨0, 0, -(45/2)⟩, 3, true, none⟩,
   ⟨2, ⟨-8, -8, -(45/2)⟩, 3, true, none⟩,
   ⟨3, ⟨8, -8, -(45/2)⟩, 3, true, none⟩,
   ⟨4, ⟨16, -8, -(45/2)⟩, 3, true, none⟩,
   ⟨5, ⟨-16, 0, -(45/2)⟩, 3, true, none⟩,
   ⟨6, ⟨-8, 0, -(45/2)⟩, 3, true, none⟩,
   ⟨7, ⟨8, 0, -(45/2)⟩, 3, true, none⟩,
   ⟨8, ⟨16, 0, -(45/2)⟩, 3, true, none⟩,
   ⟨9, ⟨-16, 8, -(45/2)⟩, 3, true, none⟩,
   ⟨10, ⟨-8, 8, -(45/2)⟩, 3, true, none⟩,
   ⟨11, ⟨0, 8, -(45/2)⟩, 3, true, none⟩,
   ⟨12, ⟨8, 8, -(45/2)⟩, 3, true, none⟩,
   ⟨13, ⟨16, 8, -(45/2)⟩, 3, true, none⟩,
   ⟨14, ⟨0, -8, -(45/2)⟩, 3, true, none⟩]

/-- The other currently-active targets passed to the position sampler. -/
def ceExisting : List Target :=
  [⟨1, ⟨0, 0, -(45/2)⟩, 3, true, none⟩,
   ⟨2, ⟨-8, -8, -(45/2)⟩, 3, true, none⟩,
   ⟨3, ⟨8, -8, -(45/2)⟩, 3, true, none⟩,
   ⟨4, ⟨16, -8, -(45/2)⟩, 3, true, none⟩,
   ⟨5, ⟨-16, 0, -(45/2)⟩, 3, true, none⟩,
   ⟨6, ⟨-8, 0, -(45/2)⟩, 3, true, none⟩,
   ⟨7, ⟨8, 0, -(45/2)⟩, 3, true, none⟩,
   ⟨8, ⟨16, 0, -(45/2)⟩, 3, true, none⟩,
   ⟨9, ⟨-16, 8, -(45/2)⟩, 3, true, none⟩,
   ⟨10, ⟨-8, 8, -(45/2)⟩, 3, true, none⟩,
   ⟨11, ⟨0, 8, -(45/2)⟩, 3, true, none⟩,
   ⟨12, ⟨8, 8, -(45/2)⟩, 3, true, none⟩,
   ⟨13, ⟨16, 8, -(45/2)⟩, 3, true, none⟩,
   ⟨14, ⟨0, -8, -(45/2)⟩, 3, true, none⟩]

/-- Claim C8 as frozen is false: when all ten sampling attempts collide
with an active target, getRandomPosition returns the unchecked fallback
position, and the respawned target 0 reappears at (0, 0, -25), only 5/2
units from the active target 1 at (0, 0, -45/2) — violating the claimed
minimum separation of 6. -/
theorem target_respawn_fallback_violation :
    ∃ t, (respawn ceRands 0 (hitMark 0 1000 cePool))[0]? = some t ∧
      t.id = 0 ∧ t.active = true ∧ t.scale = 0 ∧
      ∃ u, (respawn ceRands 0 (hitMark 0 1000 cePool))[1]? = some u ∧
        u.active = true ∧ u.id ≠ 0 ∧ distR t.position u.position < (MIN_DIST : ℝ) := by
  have hmark : hitMark 0 1000 cePool = ceMarked := by
    norm_num [hitMark, cePool, ceMarked]
  have hfilter : ceMarked.filter (fun t => t.active && !(t.id == 0)) = ceExisting := by
    norm_num [ceMarked, ceExisting]
  have hpc : ∀ i : ℕ, posClear (mkAttemptPos (ceRands i)) ceExisting = false := by
    intro i
    norm_num [posClear, mkAttemptPos, ceRands, ceExisting, distLtBool, distSqV, MIN_DIST]
  have hfind : (List.range 10).find?
      (fun i => posClear (mkAttemptPos (ceRands i)) ceExisting) = none := by
    rw [List.find?_eq_none]
    intro i _
    rw [hpc i]
    simp
  have hpos : getRandomPosition ceRands ceExisting = ⟨0, 0, -25⟩ := by
    simp only [getRandomPosition, hfind]
    norm_num [mkFallbackPos, ceRands]
  have hresp0 : (respawn ceRands 0 ceMarked)[0]? = some ⟨0, ⟨0, 0, -25⟩, 0, true, none⟩ := by
    simp only [respawn]
    rw [show ceMarked.findIdx? (fun p => p.id == 0) = some 0 from rfl]
    rw [hfilter, hpos, listModify_getElem?]
    rfl
  have hresp1 : (respawn ceRands 0 ceMarked)[1]? = some ⟨1, ⟨0, 0, -(45/2)⟩, 3, true, none⟩ := by
    simp only [respawn]
    rw [show ceMarked.findIdx? (fun p => p.id == 0) = some 0 from rfl]
    rw [hfilter, hpos]
    rfl
  refine ⟨⟨0, ⟨0, 0, -25⟩, 0, true, none⟩, ?_, rfl, rfl, rfl,
    ⟨1, ⟨0, 0, -(45/2)⟩, 3, true, none⟩, ?_, rfl, by norm_num, ?_⟩
  · rw [hmark]
    exact hresp0
  · rw [hmark]
    exact hresp1
  · exact (distLtBool_iff_dist_lt ⟨0, 0, -25⟩ ⟨0, 0, -(45/2)⟩ MIN_DIST).mp
      (by norm_num [distLtBool, distSqV, MIN_DIST])

/-- Componentwise cast of a rational vector into the reals. -/
def toR (v : Vec3 ℚ) : Vec3 ℝ := ⟨(v.x : ℝ), (v.y : ℝ), (v.z : ℝ)⟩

/-- Componentwise sum over the reals. -/
def vaddR (a b : Vec3 ℝ) : Vec3 ℝ := ⟨a.x + b.x, a.y + b.y, a.z + b.z⟩

/-- Componentwise difference over the reals (THREE.Vector3.subVectors). -/
def vsubR (a b : Vec3 ℝ) : Vec3 ℝ := ⟨a.x - b.x, a.y - b.y, a.z - b.z⟩

/-- Real scalar multiple of a vector (THREE.Vector3.multiplyScalar). -/
def vsmulR (c : ℝ) (a : Vec3 ℝ) : Vec3 ℝ := ⟨c * a.x, c * a.y, c * a.z⟩

/-- Euclidean length (THREE.Vector3.length). -/
noncomputable def vlength (v : Vec3 ℝ) : ℝ :=
  Real.sqrt (v.x ^ 2 + v.y ^ 2 + v.z ^ 2)

/-- THREE.Vector3.normalize: divideScalar(length || 1), a zero length
being replaced by 1. -/
noncomputable def vnormalize (v : Vec3 ℝ) : Vec3 ℝ :=
  let l := vlength v
  let d := if l = 0 then 1 else l
  ⟨v.x / d, v.y / d, v.z / d⟩

/-- Fixed screen-centre aim point (BulletSystem.tsx line 127). -/
def screenCenterR : Vec3 ℝ := ⟨0, 0, 0⟩

/-- A freshly spawned bullet over the reals; the random id of the source
is not modelled. -/
structure BulletR where
  position : Vec3 ℝ
  velocity : Vec3 ℝ
  active : Bool
  life : ℝ

/-- spawnBullet (BulletSystem.tsx lines 124-147): the eye position is
recomputed from the CURRENT face position via calculateCameraPosition
(BulletSystem.tsx line 128), not read from the camera's smoothed state;
the velocity is the normalized vector from that eye to the screen centre,
the spawn position is offset 10 units along it, and life is 3.0. -/
noncomputable def spawnBullet (fp : FacePosition) : BulletR :=
  let cameraPos := toR (calculateCameraPosition fp)
  let direction := vnormalize (vsubR screenCenterR cameraPos)
  let spawnPos := vaddR cameraPos (vsmulR 10 direction)
  { position := spawnPos, velocity := direction, active := true, life := 3 }

/-- Modelled from the spec: claim C6's firing direction, the unit vector
from the current smoothed eye position (CameraEyeState) to the screen
centre.  The code has no access to the camera's smoothed state, so this
definition follows the spec's words for comparison. -/
noncomputable def specFireDirFromEye (eye : Vec3 ℝ) : Vec3 ℝ :=
  vnormalize (vsubR screenCenterR eye)

/-- The target eye depth never drops below 10. -/
theorem calculateCameraPosition_z_ge (fp : FacePosition) :
    (10 : ℚ) ≤ (calculateCameraPosition fp).z := by
  unfold calculateCameraPosition
  cases h : fp.detected with
  | false => norm_num [BASE_Z]
  | true =>
      simp only [h, Bool.not_true, Bool.false_eq_true, if_false]
      have := le_max_left MIN_Z (BASE_Z + fp.z * Z_RANGE)
      simp only [MIN_Z] at this
      exact this

/-- Normalization of a vector of positive squared length: unit length, a
positive multiple of the input. -/
theorem vnormalize_spec (v : Vec3 ℝ) (h : 0 < v.x ^ 2 + v.y ^ 2 + v.z ^ 2) :
    vlength (vnormalize v) = 1 ∧
    vnormalize v = vsmulR (1 / vlength v) v ∧
    0 < 1 / vlength v := by
  have hl : 0 < vlength v := Real.sqrt_pos.mpr h
  have hlne : vlength v ≠ 0 := ne_of_gt hl
  have hv : vnormalize v = ⟨v.x / vlength v, v.y / vlength v, v.z / vlength v⟩ := by
    simp only [vnormalize]
    rw [if_neg hlne]
  refine ⟨?_, ?_, one_div_pos.mpr hl⟩
  · rw [hv]
    show Real.sqrt ((v.x / vlength v) ^ 2 + (v.y / vlength v) ^ 2 +
      (v.z / vlength v) ^ 2) = 1
    have hls : (vlength v) ^ 2 = v.x ^ 2 + v.y ^ 2 + v.z ^ 2 := Real.sq_sqrt h.le
    have hsum : (v.x / vlength v) ^ 2 + (v.y / vlength v) ^ 2 +
        (v.z / vlength v) ^ 2 = 1 := by
      field_simp
      linarith [hls]
    rw [hsum, Real.sqrt_one]
  · rw [hv]
    simp only [vsmulR]
    congr 1 <;> ring

/-- Claim C6 amended: the spawned bullet's velocity is a unit vector and a
positive multiple of the vector from the eye position recomputed from the
current face position toward the screen centre; its position is that eye
offset 10 units along the velocity; its life is 3. -/
theorem spawnBullet_spec (fp : FacePosition) :
    vlength (spawnBullet fp).velocity = 1 ∧
    (∃ c : ℝ, 0 < c ∧ (spawnBullet fp).velocity =
      vsmulR c (vsubR screenCenterR (toR (calculateCameraPosition fp)))) ∧
    (spawnBullet fp).position =
      vaddR (toR (calculateCameraPosition fp)) (vsmulR 10 (spawnBullet fp).velocity) ∧
    (spawnBullet fp).life = 3 := by
  have hz : (10 : ℚ) ≤ (calculateCameraPosition fp).z := calculateCameraPosition_z_ge fp
  have hzR : (10 : ℝ) ≤ ((calculateCameraPosition fp).z : ℝ) := by exact_mod_cast hz
  have hwz : (vsubR screenCenterR (toR (calculateCameraPosition fp))).z =
      -((calculateCameraPosition fp).z : ℝ) := by
    simp [vsubR, screenCenterR, toR]
  have hpos : 0 < (vsubR screenCenterR (toR (calculateCameraPosition fp))).x ^ 2 +
      (vsubR screenCenterR (toR (calculateCameraPosition fp))).y ^ 2 +
      (vsubR screenCenterR (toR (calculateCameraPosition fp))).z ^ 2 := by
    have h3 : (10 : ℝ) ^ 2 ≤ (vsubR screenCenterR (toR (calculateCameraPosition fp))).z ^ 2 := by
      rw [hwz]
      nlinarith
    nlinarith [sq_nonneg (vsubR screenCenterR (toR (calculateCameraPosition fp))).x,
      sq_nonneg (vsubR screenCenterR (toR (calculateCameraPosition fp))).y]
  obtain ⟨h1, h2, h3⟩ := vnormalize_spec _ hpos
  exact ⟨h1, ⟨1 / vlength (vsubR screenCenterR (toR (calculateCameraPosition fp))), h3, h2⟩,
    rfl, rfl⟩

/-- A face detected fully to the right of the frame, making the target eye
position (-30, 0, 60) differ from the smoothed camera position. -/
def fpCE : FacePosition := ⟨1, 0, 0, true⟩

/-- Claim C6 as frozen is false: with the face at fpCE on the first frame,
the smoothed camera eye is still (0, 0, 60) (the initial position) before
its lerp step and (-9, 0, 60) after it, while spawnBullet aims from the
unsmoothed target eye (-30, 0, 60); the bullet's velocity is the unit
vector of (30, 0, -60), which differs from the unit vector from either
smoothed eye position to the screen centre. -/
theorem spawnBullet_not_smoothed_eye :
    (spawnBullet fpCE).velocity ≠ specFireDirFromEye (toR initialCameraPos) ∧
    (spawnBullet fpCE).velocity ≠
      specFireDirFromEye
        (toR (lerpVec initialCameraPos (calculateCameraPosition fpCE) SMOOTHING_FACTOR)) := by
  have hcam : calculateCameraPosition fpCE = ⟨-30, 0, 60⟩ := by
    norm_num [calculateCameraPosition, fpCE, SCALE_X, SCALE_Y, BASE_Z, Z_RANGE, MIN_Z]
  have hw1 : vsubR screenCenterR (toR (calculateCameraPosition fpCE)) = ⟨30, 0, -60⟩ := by
    rw [hcam]
    simp only [vsubR, screenCenterR, toR]
    norm_num
  have hl1 : 0 < vlength (⟨30, 0, -60⟩ : Vec3 ℝ) :=
    Real.sqrt_pos.mpr (by norm_num)
  have hvel : (spawnBullet fpCE).velocity =
      ⟨30 / vlength (⟨30, 0, -60⟩ : Vec3 ℝ), 0 / vlength (⟨30, 0, -60⟩ : Vec3 ℝ),
       -60 / vlength (⟨30, 0, -60⟩ : Vec3 ℝ)⟩ := by
    show vnormalize (vsubR screenCenterR (toR (calculateCameraPosition fpCE))) = _
    rw [hw1]
    simp only [vnormalize]
    rw [if_neg (ne_of_gt hl1)]
  have hlerp : lerpVec initialCameraPos (calculateCameraPosition fpCE) SMOOTHING_FACTOR =
      ⟨-9, 0, 60⟩ := by
    rw [hcam]
    norm_num [lerpVec, initialCameraPos, SMOOTHING_FACTOR]
  have hw2 : vsubR screenCenterR (toR (⟨-9, 0, 60⟩ : Vec3 ℚ)) = ⟨9, 0, -60⟩ := by
    simp only [vsubR, screenCenterR, toR]
    norm_num
  have hl2 : 0 < vlength (⟨9, 0, -60⟩ : Vec3 ℝ) :=
    Real.sqrt_pos.mpr (by norm_num)
  constructor
  · have hd1 : specFireDirFromEye (toR initialCameraPos) = ⟨0, 0, -1⟩ := by
      have hv0 : vsubR screenCenterR (toR initialCameraPos) = ⟨0, 0, -60⟩ := by
        simp only [vsubR, screenCenterR, toR, initialCameraPos]
        norm_num
      have hl0 : vlength (⟨0, 0, -60⟩ : Vec3 ℝ) = 60 := by
        show Real.sqrt ((0 : ℝ) ^ 2 + (0 : ℝ) ^ 2 + (-60 : ℝ) ^ 2) = 60
        rw [show (0 : ℝ) ^ 2 + (0 : ℝ) ^ 2 + (-60 : ℝ) ^ 2 = 60 ^ 2 by norm_num]
        exact Real.sqrt_sq (by norm_num)
      simp only [specFireDirFromEye]
      rw [hv0]
      simp only [vnormalize, hl0]
      norm_num
    rw [hvel, hd1]
    intro h
    have hx : (30 : ℝ) / vlength (⟨30, 0, -60⟩ : Vec3 ℝ) = 0 := congrArg Vec3.x h
    rcases div_eq_zero_iff.mp hx with h30 | hl0
    · norm_num at h30
    · exact absurd hl0 (ne_of_gt hl1)
  · have hd2 : specFireDirFromEye
        (toR (lerpVec initialCameraPos (calculateCameraPosition fpCE) SMOOTHING_FACTOR)) =
        ⟨9 / vlength (⟨9, 0, -60⟩ : Vec3 ℝ), 0 / vlength (⟨9, 0, -60⟩ : Vec3 ℝ),
         -60 / vlength (⟨9, 0, -60⟩ : Vec3 ℝ)⟩ := by
      rw [hlerp]
      simp only [specFireDirFromEye]
      rw [hw2]
      simp only [vnormalize]
      rw [if_neg (ne_of_gt hl2)]
    rw [hvel, hd2]
    intro h
    have hxx : (30 : ℝ) / vlength (⟨30, 0, -60⟩ : Vec3 ℝ) =
        9 / vlength (⟨9, 0, -60⟩ : Vec3 ℝ) := congrArg Vec3.x h
    have hzz : (-60 : ℝ) / vlength (⟨30, 0, -60⟩ : Vec3 ℝ) =
        -60 / vlength (⟨9, 0, -60⟩ : Vec3 ℝ) := congrArg Vec3.z h
    rw [div_eq_div_iff (ne_of_gt hl1) (ne_of_gt hl2)] at hxx hzz
    have hll : vlength (⟨9, 0, -60⟩ : Vec3 ℝ) = vlength (⟨30, 0, -60⟩ : Vec3 ℝ) := by
      linarith
    rw [hll] at hxx
    have : (21 : ℝ) * vlength (⟨30, 0, -60⟩ : Vec3 ℝ) = 0 := by linarith
    rcases mul_eq_zero.mp this with h21 | hl0
    · norm_num at h21
    · exact absurd hl0 (ne_of_gt hl1)
